import Mathlib

/-!
Verification of the ts-spatial-navigation library.

Shallow embedding of the library's source:
 * `src/geometry` (part_003): `getRect`, `partition`, `distanceBuilder`;
 * `src/core.ts`: `prioritize`, `navigate`, `extend`, `exclude`;
 * the section registry and focus state machine (part_002):
   `isNavigable`, `getSectionId`, `focusElement`, `focusChanged`,
   `focusExtendedSelector`, `focusSection`, `gotoLeaveFor`, `focusNext`,
   and the public `SpatialNavigation` API (`add`, `remove`, `clear`, `set`,
   `enable`, `disable`, `focus`).

Elements of the page are identified by natural numbers.  Geometry uses
rationals.  Selector resolution and event cancellation are external
collaborators in the source; following the spec's interface section they
are modelled as oracle functions carried in an `Env` structure
(`selMatches` returns the elements matching a selector string in document
order, `dispatchOk` reports whether a cancelable event was not vetoed).
-/

namespace SpatialNav

abbrev Elem := Nat

inductive Dir where
  | left
  | right
  | up
  | down
deriving DecidableEq, Repr

/-- The `REVERSE` table of the source. -/
def reverseDir : Dir → Dir
  | .left => .right
  | .up => .down
  | .right => .left
  | .down => .up

/-! ## Rectangle model (`getRect`, part_003 lines 16-42) -/

/-- Raw result of `getBoundingClientRect`. -/
structure RawRect where
  left : ℚ
  top : ℚ
  right : ℚ
  bottom : ℚ
  width : ℚ
  height : ℚ
deriving DecidableEq, Repr

/-- `Rect` as built by `getRect`: bounding box plus center point.  The
source stores `center.x = left + Math.floor(width / 2)` and likewise for
`y`; `center.left/right` equal `center.x` and `center.top/bottom` equal
`center.y`, so a single pair suffices. -/
structure Rect where
  left : ℚ
  top : ℚ
  right : ℚ
  bottom : ℚ
  width : ℚ
  height : ℚ
  element : Elem
  centerX : ℚ
  centerY : ℚ
deriving DecidableEq, Repr

/-- `getRect` (part_003): derive a `Rect` from the raw bounding box. -/
def rectOfRaw (e : Elem) (cr : RawRect) : Rect :=
  { left := cr.left
    top := cr.top
    right := cr.right
    bottom := cr.bottom
    width := cr.width
    height := cr.height
    element := e
    centerX := cr.left + (⌊cr.width / 2⌋ : ℤ)
    centerY := cr.top + (⌊cr.height / 2⌋ : ℤ) }

/-! ## Spatial partitioner (`partition`, part_003 lines 62-104) -/

/-- The home bucket: `x = center.x < left ? 0 : center.x <= right ? 1 : 2`,
`y` analogous, combined as `y * Grid.SIZE + x` with `Grid.SIZE = 3`. -/
def homeBucket (targetRect rect : Rect) : Nat :=
  (if rect.centerY < targetRect.top then 0
    else if rect.centerY ≤ targetRect.bottom then 1 else 2) * 3 +
  (if rect.centerX < targetRect.left then 0
    else if rect.centerX ≤ targetRect.right then 1 else 2)

/-- The extra edge buckets a candidate with home bucket `groupId` is
duplicated into, in the order the source tests them (horizontal overlap
tests first, then vertical).  Empty for non-corner home buckets. -/
def dupBucketsFor (groupId : Nat) (targetRect : Rect) (threshold : ℚ) (rect : Rect) :
    List Nat :=
  if groupId ∈ [0, 2, 6, 8] then
    (if rect.left ≤ targetRect.right - targetRect.width * threshold then
      (if groupId = 2 then [1] else if groupId = 8 then [7] else []) else [])
    ++ (if rect.right ≥ targetRect.left + targetRect.width * threshold then
      (if groupId = 0 then [1] else if groupId = 6 then [7] else []) else [])
    ++ (if rect.top ≤ targetRect.bottom - targetRect.height * threshold then
      (if groupId = 6 then [3] else if groupId = 8 then [5] else []) else [])
    ++ (if rect.bottom ≥ targetRect.top + targetRect.height * threshold then
      (if groupId = 0 then [3] else if groupId = 2 then [5] else []) else [])
  else []

def dupBuckets (targetRect : Rect) (threshold : ℚ) (rect : Rect) : List Nat :=
  dupBucketsFor (homeBucket targetRect rect) targetRect threshold rect

/-- `groups[i].push(rect)`. -/
def pushTo (groups : List (List Rect)) (i : Nat) (r : Rect) : List (List Rect) :=
  groups.set i (groups.getD i [] ++ [r])

/-- One iteration of the partition loop: push into the home bucket, then
into each duplication bucket in source order. -/
def partitionStep (targetRect : Rect) (threshold : ℚ) (groups : List (List Rect))
    (rect : Rect) : List (List Rect) :=
  (homeBucket targetRect rect :: dupBuckets targetRect threshold rect).foldl
    (fun gs g => pushTo gs g rect) groups

def emptyGroups : List (List Rect) := [[], [], [], [], [], [], [], [], []]

/-- `partition(rects, targetRect, straightOverlapThreshold)`. -/
def partition (rects : List Rect) (targetRect : Rect) (threshold : ℚ) :
    List (List Rect) :=
  rects.foldl (partitionStep targetRect threshold) emptyGroups

/-! ## Distance metrics (`distanceBuilder`, part_003 lines 115-177) -/

def nearPlumbLineIsBetter (targetRect rect : Rect) : ℚ :=
  let d := if rect.centerX < targetRect.centerX
    then targetRect.centerX - rect.right
    else rect.left - targetRect.centerX
  if d < 0 then 0 else d

def nearHorizonIsBetter (targetRect rect : Rect) : ℚ :=
  let d := if rect.centerY < targetRect.centerY
    then targetRect.centerY - rect.bottom
    else rect.top - targetRect.centerY
  if d < 0 then 0 else d

def nearTargetLeftIsBetter (targetRect rect : Rect) : ℚ :=
  let d := if rect.centerX < targetRect.centerX
    then targetRect.left - rect.right
    else rect.left - targetRect.left
  if d < 0 then 0 else d

def nearTargetTopIsBetter (targetRect rect : Rect) : ℚ :=
  let d := if rect.centerY < targetRect.centerY
    then targetRect.top - rect.bottom
    else rect.top - targetRect.top
  if d < 0 then 0 else d

def topIsBetter (rect : Rect) : ℚ := rect.top

def bottomIsBetter (rect : Rect) : ℚ := -1 * rect.bottom

def leftIsBetter (rect : Rect) : ℚ := rect.left

def rightIsBetter (rect : Rect) : ℚ := -1 * rect.right

/-! ## Candidate resolver (`prioritize`, `navigate`; core.ts lines 35-203) -/

structure Priority where
  group : List Rect
  distance : List (Rect → ℚ)

/-- The comparator of `prioritize`: walk the distance functions until one
yields a nonzero delta.  `distLe fs a b` holds when the JS comparator
returns a value `≤ 0` on `(a, b)`, i.e. `a` sorts no later than `b`. -/
def distLe : List (Rect → ℚ) → Rect → Rect → Bool
  | [], _, _ => true
  | f :: rest, a, b => if f a = f b then distLe rest a b else decide (f a < f b)

/-- `prioritize`: first non-empty group, stably sorted by its metric
sequence.  `Array.prototype.sort` is a stable sort; `List.mergeSort` with
the same total preorder produces the same list. -/
def prioritize (priorities : List Priority) : Option (List Rect) :=
  match priorities.find? (fun p => !p.group.isEmpty) with
  | none => none
  | some p => some (p.group.mergeSort (distLe p.distance))

/-- `previous` record for `rememberSource` (types: `PreviousFocus`). -/
structure PreviousFocus where
  target : Elem
  destination : Elem
  reverse : Dir
deriving DecidableEq, Repr

/-- The configuration fields `navigate` and `focusNext` read from the
merged config `extend({}, globalConfig, _sections[currentSectionId])`. -/
structure EffCfg where
  straightOnly : Bool
  straightOverlapThreshold : ℚ
  rememberSource : Bool
  restrict : String
  previous : Option PreviousFocus

/-- `config.straightOverlapThreshold || 0.5` (`0` is falsy in JS). -/
def effThreshold (cfg : EffCfg) : ℚ :=
  if cfg.straightOverlapThreshold = 0 then 1 / 2 else cfg.straightOverlapThreshold

/-- The per-direction priority tiers (the `switch` in `navigate`,
core.ts lines 93-176; identical to `strategies.ts`). -/
def buildPriorities (targetRect : Rect) (groups internalGroups : List (List Rect)) :
    Dir → List Priority
  | .left =>
    [ ⟨internalGroups.getD 0 [] ++ internalGroups.getD 3 [] ++ internalGroups.getD 6 [],
        [nearPlumbLineIsBetter targetRect, topIsBetter]⟩,
      ⟨groups.getD 3 [],
        [nearPlumbLineIsBetter targetRect, topIsBetter]⟩,
      ⟨groups.getD 0 [] ++ groups.getD 6 [],
        [nearHorizonIsBetter targetRect, rightIsBetter, nearTargetTopIsBetter targetRect]⟩ ]
  | .right =>
    [ ⟨internalGroups.getD 2 [] ++ internalGroups.getD 5 [] ++ internalGroups.getD 8 [],
        [nearPlumbLineIsBetter targetRect, topIsBetter]⟩,
      ⟨groups.getD 5 [],
        [nearPlumbLineIsBetter targetRect, topIsBetter]⟩,
      ⟨groups.getD 2 [] ++ groups.getD 8 [],
        [nearHorizonIsBetter targetRect, leftIsBetter, nearTargetTopIsBetter targetRect]⟩ ]
  | .up =>
    [ ⟨internalGroups.getD 0 [] ++ internalGroups.getD 1 [] ++ internalGroups.getD 2 [],
        [nearHorizonIsBetter targetRect, leftIsBetter]⟩,
      ⟨groups.getD 1 [],
        [nearHorizonIsBetter targetRect, leftIsBetter]⟩,
      ⟨groups.getD 0 [] ++ groups.getD 2 [],
        [nearPlumbLineIsBetter targetRect, bottomIsBetter, nearTargetLeftIsBetter targetRect]⟩ ]
  | .down =>
    [ ⟨internalGroups.getD 6 [] ++ internalGroups.getD 7 [] ++ internalGroups.getD 8 [],
        [nearHorizonIsBetter targetRect, leftIsBetter]⟩,
      ⟨groups.getD 7 [],
        [nearHorizonIsBetter targetRect, leftIsBetter]⟩,
      ⟨groups.getD 6 [] ++ groups.getD 8 [],
        [nearPlumbLineIsBetter targetRect, topIsBetter, nearTargetLeftIsBetter targetRect]⟩ ]

/-- The geometry pipeline of `navigate` up to and including `prioritize`:
measure, partition twice, build tiers, drop the diagonal tier under
`straightOnly` (`priorities.pop()`), take and sort the first non-empty
tier. -/
def destGroupOf (geom : Elem → Option RawRect) (target : Elem) (direction : Dir)
    (candidates : List Elem) (cfg : EffCfg) : Option (List Rect) :=
  if candidates.isEmpty then none
  else
    match (geom target).map (rectOfRaw target) with
    | none => none
    | some targetRect =>
      let rects := candidates.filterMap (fun c => (geom c).map (rectOfRaw c))
      if rects.isEmpty then none
      else
        let th := effThreshold cfg
        let groups := partition rects targetRect th
        let internalGroups := partition (groups.getD 4 []) targetRect th
        let priorities := buildPriorities targetRect groups internalGroups direction
        prioritize (if cfg.straightOnly then priorities.dropLast else priorities)

/-- `navigate(target, direction, candidates, config)` (core.ts 67-203).
The remembered-source block (lines 183-196) scans the winning group for
`config.previous.target` when `rememberSource` is set and the `previous`
record's `destination`/`reverse` match the current target and requested
direction; otherwise the sorted-first member wins. -/
def navigate (geom : Elem → Option RawRect) (target : Elem) (direction : Dir)
    (candidates : List Elem) (cfg : EffCfg) : Option Elem :=
  match destGroupOf geom target direction candidates cfg with
  | none => none
  | some destGroup =>
    let dest : Option Elem :=
      if cfg.rememberSource then
        match cfg.previous with
        | some previous =>
          if previous.destination = target ∧ previous.reverse = direction then
            (destGroup.find? (fun r => r.element = previous.target)).map (·.element)
          else none
        | none => none
      else none
    match dest with
    | some d => some d
    | none => destGroup.head?.map (·.element)

/-! ## Section registry and focus state machine (part_002)

Sections are stored in a JS object; string keys enumerate in insertion
order, modelled as an association list.  A `SectionCfg` field that is
`none` models an absent (`undefined`) property. -/

inductive LeaveEntry where
  | str (s : String)
  | el (e : Elem)
deriving DecidableEq, Repr

structure LeaveForMap where
  left : Option LeaveEntry := none
  right : Option LeaveEntry := none
  up : Option LeaveEntry := none
  down : Option LeaveEntry := none
deriving DecidableEq, Repr

def LeaveForMap.get (m : LeaveForMap) : Dir → Option LeaveEntry
  | .left => m.left
  | .right => m.right
  | .up => m.up
  | .down => m.down

structure SectionCfg where
  selector : Option String := none
  straightOnly : Option Bool := none
  straightOverlapThreshold : Option ℚ := none
  rememberSource : Option Bool := none
  disabled : Option Bool := none
  defaultElement : Option String := none
  enterTo : Option String := none
  leaveFor : Option LeaveForMap := none
  restrict : Option String := none
  navigableFilter : Option (Elem → String → Bool) := none
  lastFocusedElement : Option Elem := none
  previous : Option PreviousFocus := none

/-- The module-level `globalConfig` (part_002 lines 55-70).  Every field
is always defined (`set` skips `undefined` values for the global config),
so the fields are plain values.  `tabIndexIgnoreList` and the two prefix
strings only affect `makeFocusable` and id/event naming and are omitted. -/
structure GlobalCfg where
  selector : String := ""
  straightOnly : Bool := false
  straightOverlapThreshold : ℚ := 1 / 2
  rememberSource : Bool := false
  disabled : Bool := false
  defaultElement : String := ""
  enterTo : String := ""
  leaveFor : Option LeaveForMap := none
  restrict : String := "self-first"
  navigableFilter : Option (Elem → String → Bool) := none

/-- The module-level mutable variables of part_002 (`_sections`,
`_sectionCount`, `_defaultSectionId`, `_lastSectionId`, `_pause`,
`_duringFocusChange`, `_idPool`) plus the focus primitive's state
(`document.activeElement`; `none` = body) and the mutable global
config.  `_sectionCount` is a JS number and may go negative, hence `ℤ`. -/
structure EngineState where
  sections : List (String × SectionCfg) := []
  sectionCount : ℤ := 0
  defaultSectionId : String := ""
  lastSectionId : String := ""
  pauseFlag : Bool := false
  duringFocusChange : Bool := false
  idPool : Nat := 0
  focused : Option Elem := none
  global : GlobalCfg := {}

def initState : EngineState := {}

/-- External collaborators (spec section 6): selector resolution,
geometry, visibility, the `data-sn-<dir>` attributes, and the cancelable
notification channel.  `dispatchOk ty e` is the return value of
`dispatch(e, ty)`: `false` means the cancelable event was vetoed. -/
structure Env where
  selMatches : String → List Elem
  geom : Elem → Option RawRect
  visible : Elem → Bool
  disabledAttr : Elem → Bool
  snAttr : Dir → Elem → Option String
  dispatchOk : String → Elem → Bool

/-- Object-key lookup `_sections[id]`. -/
def findSection (st : EngineState) (id : String) : Option SectionCfg :=
  (st.sections.find? (fun p => p.1 = id)).map (·.2)

/-- In-place property update of `_sections[id]` (no-op on unknown id; the
engine only updates sections it has just looked up). -/
def updateSection (st : EngineState) (id : String) (f : SectionCfg → SectionCfg) :
    EngineState :=
  { st with sections := st.sections.map (fun p => if p.1 = id then (p.1, f p.2) else p) }

/-- JS truthiness of an optional boolean property (`undefined` and
`false` are falsy). -/
def truthy : Option Bool → Bool
  | some b => b
  | none => false

/-- `parseSelector` on a possibly-absent selector string: `undefined` and
`""` are falsy and yield `[]`; otherwise the collaborator returns the
matching elements in document order. -/
def parseSelector (env : Env) : Option String → List Elem
  | some s => if s = "" then [] else env.selMatches s
  | none => []

/-- `matchSelector(elem, selector)` for a string selector;
`undefined` selectors match nothing. -/
def matchSel (env : Env) (e : Elem) : Option String → Bool
  | some s => decide (e ∈ env.selMatches s)
  | none => false

/-- `isNavigable(elem, sectionId, verifySectionSelector)`.  A `none`
element or section id is falsy and yields `false`. -/
def isNavigable (env : Env) (st : EngineState) (elem : Option Elem)
    (sectionId : Option String) (verifySectionSelector : Bool) : Bool :=
  match elem, sectionId with
  | some e, some sid =>
    match findSection st sid with
    | none => false
    | some cfg =>
      if truthy cfg.disabled then false
      else if !env.visible e || env.disabledAttr e then false
      else if verifySectionSelector && !matchSel env e cfg.selector then false
      else
        match cfg.navigableFilter with
        | some f => f e sid
        | none =>
          match st.global.navigableFilter with
          | some f => f e sid
          | none => true
  | _, _ => false

/-- `getSectionId(elem)`: first section in enumeration (registration)
order that is not disabled and whose selector matches. -/
def getSectionId (env : Env) (st : EngineState) (e : Elem) : Option String :=
  (st.sections.find? (fun p => !truthy p.2.disabled && matchSel env e p.2.selector)).map (·.1)

def getSectionNavigableElements (env : Env) (st : EngineState) (sectionId : String) :
    List Elem :=
  (parseSelector env ((findSection st sectionId).bind (·.selector))).filter
    (fun e => isNavigable env st (some e) (some sectionId) false)

def getSectionDefaultElement (env : Env) (st : EngineState) (sectionId : String) :
    Option Elem :=
  (parseSelector env ((findSection st sectionId).bind (·.defaultElement))).find?
    (fun e => isNavigable env st (some e) (some sectionId) true)

def getSectionLastFocusedElement (env : Env) (st : EngineState) (sectionId : String) :
    Option Elem :=
  let lastFocusedElement := (findSection st sectionId).bind (·.lastFocusedElement)
  if isNavigable env st lastFocusedElement (some sectionId) true
  then lastFocusedElement else none

/-- `focusChanged(elem, sectionId)`: record `lastFocusedElement` on the
section and update `_lastSectionId` (re-deriving the section when the
caller passed none). -/
def focusChanged (env : Env) (st : EngineState) (e : Elem) (sectionId : Option String) :
    EngineState :=
  let sid := match sectionId with
    | some s => some s
    | none => getSectionId env st e
  match sid with
  | some s =>
    { updateSection st s (fun c => { c with lastFocusedElement := some e }) with
      lastSectionId := s }
  | none => st

/-- `focusElement(elem, sectionId, direction)` (part_002 lines 171-231).
Cancelable `willunfocus` / `willfocus` events gate the change unless the
engine is paused or already inside a focus change, in which case the
silent path applies the focus primitive directly. -/
def focusElement (env : Env) (st : EngineState) (elem : Option Elem)
    (sectionId : Option String) (_direction : Option Dir) : Bool × EngineState :=
  match elem with
  | none => (false, st)
  | some e =>
    let currentFocusedElement := st.focused
    let silentFocus : EngineState → EngineState := fun s =>
      focusChanged env { s with focused := some e } e sectionId
    if st.duringFocusChange then
      (true, silentFocus st)
    else
      let st := { st with duringFocusChange := true }
      if st.pauseFlag then
        (true, { silentFocus st with duringFocusChange := false })
      else
        let proceed : EngineState → Bool × EngineState := fun s =>
          if env.dispatchOk "willfocus" e then
            let s := { s with focused := some e, duringFocusChange := false }
            (true, focusChanged env s e sectionId)
          else (false, { s with duringFocusChange := false })
        match currentFocusedElement with
        | some c =>
          if env.dispatchOk "willunfocus" c then
            proceed { st with focused := none }
          else (false, { st with duringFocusChange := false })
        | none => proceed st

/-- `focusSection(sectionId)` (part_002 lines 262-298).  The scan range
is `[sectionId]` or `[default, last, registration order]`, deduplicated,
existing, not disabled.  The body then runs `range.forEach(...)`; the
`return focusElement(...)` inside the callback only leaves the callback,
so every section of the range is processed and the function always
returns `false`. -/
def focusSection (env : Env) (st : EngineState) (sectionId : Option String) :
    Bool × EngineState :=
  let addRange : List String → String → List String := fun range id =>
    if id ≠ "" && !range.contains id && (findSection st id).isSome
        && !truthy ((findSection st id).bind (·.disabled)) then
      range ++ [id]
    else range
  let range : List String :=
    match sectionId with
    | some sid => addRange [] sid
    | none =>
      let r := addRange [] st.defaultSectionId
      let r := addRange r st.lastSectionId
      st.sections.foldl (fun r p => addRange r p.1) r
  let st := range.foldl
    (fun st id =>
      let next : Option Elem :=
        if (findSection st id).bind (·.enterTo) = some "last-focused" then
          match getSectionLastFocusedElement env st id with
          | some e => some e
          | none =>
            match getSectionDefaultElement env st id with
            | some e => some e
            | none => (getSectionNavigableElements env st id).head?
        else
          match getSectionDefaultElement env st id with
          | some e => some e
          | none =>
            match getSectionLastFocusedElement env st id with
            | some e => some e
            | none => (getSectionNavigableElements env st id).head?
      match next with
      | some n => (focusElement env st (some n) (some id) none).2
      | none => st)
    st
  (false, st)

/-- `focusExtendedSelector(selector, direction)`: `@` prefix targets a
section (bare `@` means the default scan); otherwise the first match of
the plain selector is focused when navigable. -/
def focusExtendedSelector (env : Env) (st : EngineState) (s : String)
    (direction : Option Dir) : Bool × EngineState :=
  if s.startsWith "@" then
    if s.length = 1 then focusSection env st none
    else focusSection env st (some (s.drop 1))
  else
    match (parseSelector env (some s)).head? with
    | some next =>
      let nextSectionId := getSectionId env st next
      if isNavigable env st (some next) nextSectionId false then
        focusElement env st (some next) nextSectionId direction
      else (false, st)
    | none => (false, st)

/-- `gotoLeaveFor(sectionId, direction)` (part_002 lines 304-319).
Returns `some true` / `some false` / `none`, where `none` stands for the
JS `null` ("block").  Note the source guards with `if (leaveFor)`: an
empty-string entry is falsy, so the inner `leaveFor === ''` block branch
is unreachable and the function returns `false` for it. -/
def gotoLeaveFor (env : Env) (st : EngineState) (sectionId : String) (direction : Dir) :
    Option Bool × EngineState :=
  match ((findSection st sectionId).bind (·.leaveFor)).bind (fun m => m.get direction) with
  | some (.str s) =>
    if s ≠ "" then
      if s = "" then (none, st)
      else
        let r := focusExtendedSelector env st s (some direction)
        (some r.1, r.2)
    else (some false, st)
  | some (.el e) =>
    let nextSectionId := getSectionId env st e
    if isNavigable env st (some e) nextSectionId false then
      let r := focusElement env st (some e) nextSectionId (some direction)
      (some r.1, r.2)
    else (some false, st)
  | none => (some false, st)

/-- `allNavigableElements`: concatenation of every section's navigable
elements in enumeration order (part_002 lines 335-340). -/
def allNavigableElements (env : Env) (st : EngineState) : List Elem :=
  st.sections.foldl (fun acc p => acc ++ getSectionNavigableElements env st p.1) []

/-- `exclude(elemList, excludedElem)` (core.ts 286-294). -/
def exclude (elemList excluded : List Elem) : List Elem :=
  elemList.filter (fun e => !excluded.contains e)

/-- `extend({}, globalConfig, _sections[currentSectionId])` restricted to
the fields the directional decision reads: each section field falls back
to the global one when absent. -/
def effectiveCfg (st : EngineState) (sectionId : String) : EffCfg :=
  let g := st.global
  match findSection st sectionId with
  | none =>
    { straightOnly := g.straightOnly
      straightOverlapThreshold := g.straightOverlapThreshold
      rememberSource := g.rememberSource
      restrict := g.restrict
      previous := none }
  | some c =>
    { straightOnly := c.straightOnly.getD g.straightOnly
      straightOverlapThreshold := c.straightOverlapThreshold.getD g.straightOverlapThreshold
      rememberSource := c.rememberSource.getD g.rememberSource
      restrict := c.restrict.getD g.restrict
      previous := c.previous }

/-- The candidate-set selection and `navigate` calls of `focusNext`
(part_002 lines 342-367): `self-only`/`self-first` search the current
section first (excluding the current element); `self-first` falls back to
all other sections' navigable elements; anything else searches all
sections minus the current element. -/
def pickNext (env : Env) (st : EngineState) (direction : Dir)
    (currentFocusedElement : Elem) (currentSectionId : String) : Option Elem :=
  let cfg := effectiveCfg st currentSectionId
  if cfg.restrict = "self-only" || cfg.restrict = "self-first" then
    let currentSectionNavigableElements := getSectionNavigableElements env st currentSectionId
    match navigate env.geom currentFocusedElement direction
        (exclude currentSectionNavigableElements [currentFocusedElement]) cfg with
    | some n => some n
    | none =>
      if cfg.restrict = "self-first" then
        navigate env.geom currentFocusedElement direction
          (exclude (allNavigableElements env st) currentSectionNavigableElements) cfg
      else none
  else
    navigate env.geom currentFocusedElement direction
      (exclude (allNavigableElements env st) [currentFocusedElement]) cfg

/-- `focusNext(direction, currentFocusedElement, currentSectionId)`
(part_002 lines 321-409).  The `data-sn-<direction>` attribute overrides
geometry; otherwise the winner is recorded as the section's `previous`,
cross-section winners consult `leaveFor` and the destination's `enterTo`,
and the transition is committed through `focusElement`. -/
def focusNext (env : Env) (st : EngineState) (direction : Dir)
    (currentFocusedElement : Elem) (currentSectionId : String) : Bool × EngineState :=
  match env.snAttr direction currentFocusedElement with
  | some extSelector =>
    if extSelector = "" then (false, st)
    else
      let r := focusExtendedSelector env st extSelector (some direction)
      if r.1 then (true, r.2) else (false, r.2)
  | none =>
    match pickNext env st direction currentFocusedElement currentSectionId with
    | some next =>
      let newPrevious : Option PreviousFocus :=
        some ⟨currentFocusedElement, next, reverseDir direction⟩
      let st := updateSection st currentSectionId (fun c => { c with previous := newPrevious })
      let nextSectionId := getSectionId env st next
      if some currentSectionId ≠ nextSectionId then
        let r := gotoLeaveFor env st currentSectionId direction
        match r.1 with
        | some true => (true, r.2)
        | none => (false, r.2)
        | some false =>
          let st := r.2
          let enterToElement : Option Elem :=
            match nextSectionId with
            | none => none
            | some ns =>
              match (findSection st ns).bind (·.enterTo) with
              | some "last-focused" =>
                (match getSectionLastFocusedElement env st ns with
                 | some e => some e
                 | none => getSectionDefaultElement env st ns)
              | some "default-element" => getSectionDefaultElement env st ns
              | _ => none
          let next := match enterToElement with
            | some e => e
            | none => next
          focusElement env st (some next) nextSectionId (some direction)
      else
        focusElement env st (some next) nextSectionId (some direction)
    | none =>
      let r := gotoLeaveFor env st currentSectionId direction
      match r.1 with
      | some true => (true, r.2)
      | _ => (false, r.2)

/-- Target argument of `SpatialNavigation.focus`: a concrete element or a
string (section id or extended selector). -/
inductive FocusTarget where
  | el (e : Elem)
  | str (s : String)

/-- `SpatialNavigation.focus(elem, silent)` (part_002 lines 693-729). -/
def snFocus (env : Env) (st : EngineState) (target : Option FocusTarget)
    (silent : Bool) : Bool × EngineState :=
  let autoPause := !st.pauseFlag && silent
  let st := if autoPause then { st with pauseFlag := true } else st
  let r : Bool × EngineState :=
    match target with
    | none => focusSection env st none
    | some (.str s) =>
      if s = "" then focusSection env st none
      else if (findSection st s).isSome then focusSection env st (some s)
      else focusExtendedSelector env st s none
    | some (.el e) =>
      let nextSectionId := getSectionId env st e
      if isNavigable env st (some e) nextSectionId false then
        focusElement env st (some e) nextSectionId none
      else (false, st)
  let st := r.2
  let st := if autoPause then { st with pauseFlag := false } else st
  (r.1, st)

/-! ## Registry operations (`add` / `remove` / `clear` / `set` /
`enable` / `disable`, part_002 lines 577-678)

A config object passed to `add`/`set` is an ordered list of properties.
`set` only copies a property whose key is also defined on `globalConfig`;
the `id` property is not (`globalConfig` has no `id`), which the model
captures with the `idKey` item. -/

inductive PatchItem where
  | idKey
  | selector (v : Option String)
  | straightOnly (v : Option Bool)
  | rememberSource (v : Option Bool)
  | disabled (v : Option Bool)
  | enterTo (v : Option String)
  | restrict (v : Option String)
deriving DecidableEq, Repr

/-- Whether `globalConfig[key] !== undefined` for the item's key. -/
def PatchItem.settable : PatchItem → Bool
  | .idKey => false
  | _ => true

/-- `_sections[config.id][key] = value` followed by the
`extend({}, ...)` cleanup: assigning `undefined` ends up clearing the
property, which the `Option` model expresses directly. -/
def applyPatchSection (c : SectionCfg) : PatchItem → SectionCfg
  | .idKey => c
  | .selector v => { c with selector := v }
  | .straightOnly v => { c with straightOnly := v }
  | .rememberSource v => { c with rememberSource := v }
  | .disabled v => { c with disabled := v }
  | .enterTo v => { c with enterTo := v }
  | .restrict v => { c with restrict := v }

/-- The global branch of `set` skips `undefined` values. -/
def applyPatchGlobal (g : GlobalCfg) : PatchItem → GlobalCfg
  | .selector (some v) => { g with selector := v }
  | .straightOnly (some v) => { g with straightOnly := v }
  | .rememberSource (some v) => { g with rememberSource := v }
  | .disabled (some v) => { g with disabled := v }
  | .enterTo (some v) => { g with enterTo := v }
  | .restrict (some v) => { g with restrict := v }
  | _ => g

/-- `SpatialNavigation.set(config)` (part_002 lines 589-612).  With an
unknown id, the first settable key raises a `TypeError` before anything
was mutated (modelled as leaving the state unchanged); with no settable
key the trailing `_sections[config.id] = extend({}, _sections[config.id])`
silently materialises an empty section object under that id without
touching `_sectionCount`. -/
def snSet (st : EngineState) (id : Option String) (patch : List PatchItem) :
    EngineState :=
  match id with
  | some i =>
    if (findSection st i).isSome then
      patch.foldl
        (fun st item =>
          if item.settable then updateSection st i (fun c => applyPatchSection c item)
          else st)
        st
    else if patch.any (·.settable) then st
    else { st with sections := st.sections ++ [(i, {})] }
  | none =>
    patch.foldl
      (fun st item =>
        if item.settable then { st with global := applyPatchGlobal st.global item }
        else st)
      st

/-- `generateId`: increment `_idPool` until `section-<n>` is unused.  The
source loops unboundedly; among `_sectionCount + 1` successive candidates
one must be free, so a fueled search with that much fuel is equivalent. -/
def generateIdAux (st : EngineState) : Nat → Nat → String × Nat
  | pool, 0 => ("section-" ++ toString (pool + 1), pool + 1)
  | pool, fuel + 1 =>
    let pool := pool + 1
    let id := "section-" ++ toString pool
    if (findSection st id).isNone then (id, pool)
    else generateIdAux st pool fuel

def generateId (st : EngineState) : String × EngineState :=
  let r := generateIdAux st st.idPool (st.sections.length + 1)
  (r.1, { st with idPool := r.2 })

/-- `SpatialNavigation.add(config)` (part_002 lines 619-634).  A missing
or empty id is generated; an existing id throws (state unchanged);
otherwise an empty section object is stored, the count incremented, and
`set` applied. -/
def snAdd (st : EngineState) (id : Option String) (patch : List PatchItem) :
    EngineState :=
  let r : String × EngineState :=
    match id with
    | some i => if i = "" then generateId st else (i, st)
    | none => generateId st
  let i := r.1
  let st := r.2
  if (findSection st i).isSome then st
  else
    let st := { st with
      sections := st.sections ++ [(i, {})]
      sectionCount := st.sectionCount + 1 }
    snSet st (some i) patch

/-- `SpatialNavigation.remove(id)` (part_002 lines 640-654).  An empty id
throws (unchanged); a known id is deleted (`extend` drops the
`undefined` slot), the count decremented, and `_lastSectionId` cleared
when it matched; an unknown id returns `false` without change. -/
def snRemove (st : EngineState) (id : String) : EngineState :=
  if id = "" then st
  else if (findSection st id).isSome then
    { st with
      sections := st.sections.filter (fun p => !(p.1 = id : Bool))
      sectionCount := st.sectionCount - 1
      lastSectionId := if st.lastSectionId = id then "" else st.lastSectionId }
  else st

def snDisable (st : EngineState) (id : String) : EngineState :=
  if (findSection st id).isSome then
    updateSection st id (fun c => { c with disabled := some true })
  else st

def snEnable (st : EngineState) (id : String) : EngineState :=
  if (findSection st id).isSome then
    updateSection st id (fun c => { c with disabled := some false })
  else st

/-- `SpatialNavigation.clear()` (part_002 lines 577-583). -/
def snClear (st : EngineState) : EngineState :=
  { st with
    sections := []
    sectionCount := 0
    defaultSectionId := ""
    lastSectionId := ""
    duringFocusChange := false }

inductive Op where
  | add (id : Option String) (patch : List PatchItem)
  | remove (id : String)
  | clear
  | set (id : Option String) (patch : List PatchItem)
  | enable (id : String)
  | disable (id : String)
deriving DecidableEq, Repr

def applyOp (st : EngineState) : Op → EngineState
  | .add id patch => snAdd st id patch
  | .remove id => snRemove st id
  | .clear => snClear st
  | .set id patch => snSet st id patch
  | .enable id => snEnable st id
  | .disable id => snDisable st id

def applyOps (st : EngineState) (ops : List Op) : EngineState :=
  ops.foldl applyOp st

/-! ## Auxiliary definitions for the claims: observation helpers,
bucket/rule spellings, and the concrete scenarios used by witnesses
and counterexamples -/

/-- The corner-duplication rule of `partition`, spelled out: the home
bucket is one of the four corners and the corresponding overlap test of
the source holds. -/
def cornerDup (t : Rect) (th : ℚ) (r : Rect) (g : Nat) : Prop :=
  (homeBucket t r = 2 ∧ g = 1 ∧ r.left ≤ t.right - t.width * th) ∨
  (homeBucket t r = 8 ∧ g = 7 ∧ r.left ≤ t.right - t.width * th) ∨
  (homeBucket t r = 0 ∧ g = 1 ∧ t.left + t.width * th ≤ r.right) ∨
  (homeBucket t r = 6 ∧ g = 7 ∧ t.left + t.width * th ≤ r.right) ∨
  (homeBucket t r = 6 ∧ g = 3 ∧ r.top ≤ t.bottom - t.height * th) ∨
  (homeBucket t r = 8 ∧ g = 5 ∧ r.top ≤ t.bottom - t.height * th) ∨
  (homeBucket t r = 0 ∧ g = 3 ∧ t.top + t.height * th ≤ r.bottom) ∨
  (homeBucket t r = 2 ∧ g = 5 ∧ t.top + t.height * th ≤ r.bottom)

def tC4 : Rect := ⟨0, 0, 10, 10, 10, 10, 0, 5, 5⟩

/-- A candidate whose home bucket is the top-left corner and whose
vertical overlap with `tC4` is exactly the threshold fraction. -/
def rC4 : Rect := ⟨-20, -20, -1, 5, 19, 25, 1, -11, -8⟩

def tC8 : Rect := ⟨2, 2, 10, 10, 8, 8, 0, 6, 6⟩

def rC8 : Rect := ⟨0, 0, 12, 12, 12, 12, 1, 6, 6⟩

/-- The single edge bucket of the first partition pass used by tier 2 of
each direction. -/
def edgeBucket : Dir → Nat
  | .left => 3
  | .right => 5
  | .up => 1
  | .down => 7

def geomC7 : Elem → Option RawRect := fun e =>
  if e = 1 then some ⟨0, 0, 10, 10, 10, 10⟩
  else if e = 2 then some ⟨20, 20, 30, 30, 10, 10⟩ else none

def cfgC7 : EffCfg := ⟨true, 1 / 2, false, "self-first", none⟩

def cfgC5 : EffCfg := ⟨false, 1 / 2, true, "self-first", some ⟨3, 1, .right⟩⟩

def geomC5 : Elem → Option RawRect := fun e =>
  if e = 1 then some ⟨100, 0, 150, 50, 50, 50⟩
  else if e = 2 then some ⟨200, 0, 250, 50, 50, 50⟩
  else if e = 3 then some ⟨210, 0, 260, 50, 50, 50⟩ else none

/-- The winning tier for the `claim_C5` witness scenario: element 2 is
geometrically closer, element 3 is the remembered source. -/
def gC5 : List Rect :=
  [⟨200, 0, 250, 50, 50, 50, 2, 225, 25⟩, ⟨210, 0, 260, 50, 50, 50, 3, 235, 25⟩]

def envC10 : Env :=
  { selMatches := fun s => if s = ".x" then [5] else []
    geom := fun _ => none
    visible := fun _ => true
    disabledAttr := fun _ => false
    snAttr := fun _ _ => none
    dispatchOk := fun _ _ => true }

/-- Element 5 matches sections `d` (disabled), `a` and `b`; attribution
must skip `d` and pick `a`. -/
def stC10 : EngineState :=
  { sections :=
      [("d", { selector := some ".x", disabled := some true }),
       ("a", { selector := some ".x" }),
       ("b", { selector := some ".x" })]
    sectionCount := 3 }

def envC6 : Env :=
  { selMatches := fun s => if s = ".a" then [1] else if s = ".b" then [2] else []
    geom := fun e =>
      if e = 1 then some ⟨0, 0, 10, 10, 10, 10⟩
      else if e = 2 then some ⟨20, 0, 30, 10, 10, 10⟩ else none
    visible := fun _ => true
    disabledAttr := fun _ => false
    snAttr := fun _ _ => none
    dispatchOk := fun _ _ => true }

/-- Section `a` is `self-only` and holds only the current element;
section `b` holds a navigable element straight to the right. -/
def stC6 : EngineState :=
  { sections :=
      [("a", { selector := some ".a", restrict := some "self-only" }),
       ("b", { selector := some ".b" })]
    sectionCount := 2
    focused := some 1 }

def sectionPrevious (st : EngineState) (id : String) : Option PreviousFocus :=
  (findSection st id).bind (·.previous)

def sectionLastFocused (st : EngineState) (id : String) : Option Elem :=
  (findSection st id).bind (·.lastFocusedElement)

def envC1 : Env :=
  { selMatches := fun s => if s = ".a" then [1, 2] else []
    geom := fun e =>
      if e = 1 then some ⟨0, 0, 10, 10, 10, 10⟩
      else if e = 2 then some ⟨20, 0, 30, 10, 10, 10⟩ else none
    visible := fun _ => true
    disabledAttr := fun _ => false
    snAttr := fun _ _ => none
    dispatchOk := fun ty _ => !(ty = "willunfocus") }

/-- Elements 1 and 2 both belong to section `a`; element 1 is focused
and every `willunfocus` notification is vetoed. -/
def stC1 : EngineState :=
  { sections := [("a", { selector := some ".a" })]
    sectionCount := 1
    focused := some 1 }

def envC2 : Env :=
  { selMatches := fun s => if s = ".a" then [1] else if s = ".b" then [2] else []
    geom := fun e =>
      if e = 1 then some ⟨0, 0, 10, 10, 10, 10⟩
      else if e = 2 then some ⟨20, 0, 30, 10, 10, 10⟩ else none
    visible := fun _ => true
    disabledAttr := fun _ => false
    snAttr := fun _ _ => none
    dispatchOk := fun _ _ => true }

/-- Section `a` holds the focused element 1 and declares
`leaveFor.right = ""` (the documented "block" value); section `b` holds
element 2, the geometric winner to the right. -/
def stC2 : EngineState :=
  { sections :=
      [("a", { selector := some ".a",
               leaveFor := some { right := some (.str "") } }),
       ("b", { selector := some ".b" })]
    sectionCount := 2
    focused := some 1 }

def envC3 : Env :=
  { selMatches := fun s => if s = ".a" then [1] else if s = ".b" then [2] else []
    geom := fun _ => none
    visible := fun _ => true
    disabledAttr := fun _ => false
    snAttr := fun _ _ => none
    dispatchOk := fun _ _ => true }

/-- Two enabled sections, each with one focusable element, nothing
focused, no default and no last section. -/
def stC3 : EngineState :=
  { sections := [("a", { selector := some ".a" }), ("b", { selector := some ".b" })]
    sectionCount := 2 }

/-- Guard for the ghost-entry path of `set`: a `set` carrying an id must
name an existing section. -/
def setOkB (st : EngineState) : Op → Bool
  | .set (some id) _ => (findSection st id).isSome
  | _ => true

def goodSeqB (st : EngineState) : List Op → Bool
  | [] => true
  | op :: ops => setOkB st op && goodSeqB (applyOp st op) ops

def invC9 (st : EngineState) : Prop :=
  (st.sections.map Prod.fst).Nodup ∧ st.sectionCount = (st.sections.length : ℤ)

/-- The section-creating part of `add`: store an empty section object
under the id and bump the count. -/
def addEntry (s : EngineState) (i : String) : EngineState :=
  { s with sections := s.sections ++ [(i, {})], sectionCount := s.sectionCount + 1 }

def opsC9 : List Op :=
  [Op.add (some "a") [.selector (some ".a")],
   Op.set (some "a") [.restrict (some "self-only")],
   Op.disable "a",
   Op.remove "zz",
   Op.add none [],
   Op.enable "a",
   Op.remove "a",
   Op.set none [.rememberSource (some true)],
   Op.clear,
   Op.add (some "c") [.idKey, .disabled (some false)]]

/-! ## Lemmas about the partitioner -/

theorem length_pushTo (gs : List (List Rect)) (i : Nat) (r : Rect) :
    (pushTo gs i r).length = gs.length := by
  simp [pushTo]

theorem getD_pushTo (gs : List (List Rect)) (i : Nat) (r : Rect) (g : Nat)
    (hi : i < gs.length) :
    (pushTo gs i r).getD g [] =
      if g = i then gs.getD g [] ++ [r] else gs.getD g [] := by
  unfold pushTo
  rcases Nat.lt_or_ge g gs.length with hg | hg
  · simp only [List.getD_eq_getElem?_getD, List.getElem?_set]
    split
    · next h => subst h; simp [List.getElem?_eq_getElem hg]
    · next h =>
      have : ¬ g = i := fun hgi => h hgi.symm
      simp [this]
  · have h1 : gs.getD g [] = [] := List.getD_eq_default _ _ hg
    have h2 : (gs.set i (gs.getD i [] ++ [r])).getD g [] = [] :=
      List.getD_eq_default _ _ (by simpa using hg)
    rw [h1, h2]
    have : ¬ g = i := by omega
    simp [this]

theorem homeBucket_lt (t r : Rect) : homeBucket t r < 9 := by
  unfold homeBucket
  split_ifs <;> omega

theorem dupBucketsFor_subset (gid : Nat) (t : Rect) (th : ℚ) (r : Rect) :
    ∀ g ∈ dupBucketsFor gid t th r, g < 9 := by
  intro g hg
  unfold dupBucketsFor at hg
  split_ifs at hg <;> simp_all <;> omega

theorem dupBuckets_subset (t : Rect) (th : ℚ) (r : Rect) :
    ∀ g ∈ dupBuckets t th r, g < 9 :=
  dupBucketsFor_subset (homeBucket t r) t th r

theorem mem_foldl_pushTo (r : Rect) :
    ∀ (l : List Nat) (gs : List (List Rect)), gs.length = 9 → (∀ i ∈ l, i < 9) →
    ∀ (g : Nat) (r' : Rect),
      (r' ∈ (l.foldl (fun gs i => pushTo gs i r) gs).getD g [] ↔
        r' ∈ gs.getD g [] ∨ (r' = r ∧ g ∈ l))
  | [], gs, _, _, g, r' => by simp
  | i :: l, gs, hlen, hl, g, r' => by
    have hi : i < 9 := hl i (by simp)
    have hlen' : (pushTo gs i r).length = 9 := by rw [length_pushTo]; exact hlen
    have ih := mem_foldl_pushTo r l (pushTo gs i r) hlen'
      (fun j hj => hl j (by simp [hj])) g r'
    simp only [List.foldl_cons]
    rw [ih, getD_pushTo gs i r g (by omega)]
    by_cases hgi : g = i
    · subst hgi
      simp only [List.mem_append, List.mem_singleton, List.mem_cons, if_pos trivial,
        eq_self_iff_true, if_true]
      tauto
    · simp only [if_neg hgi, List.mem_cons]
      tauto

theorem length_partitionStep (t : Rect) (th : ℚ) (gs : List (List Rect)) (r : Rect) :
    (partitionStep t th gs r).length = gs.length := by
  unfold partitionStep
  generalize homeBucket t r :: dupBuckets t th r = l
  induction l generalizing gs with
  | nil => rfl
  | cons i l ih => simp [List.foldl_cons, ih, length_pushTo]

theorem mem_partitionStep (t : Rect) (th : ℚ) (gs : List (List Rect)) (r : Rect)
    (hlen : gs.length = 9) (g : Nat) (r' : Rect) :
    r' ∈ (partitionStep t th gs r).getD g [] ↔
      r' ∈ gs.getD g [] ∨
        (r' = r ∧ (g = homeBucket t r ∨ g ∈ dupBuckets t th r)) := by
  unfold partitionStep
  rw [mem_foldl_pushTo r _ gs hlen]
  · simp [List.mem_cons, eq_comm]
  · intro i hi
    rcases List.mem_cons.mp hi with h | h
    · subst h; exact homeBucket_lt t r
    · exact dupBuckets_subset t th r i h

theorem length_partition (rects : List Rect) (t : Rect) (th : ℚ) :
    (partition rects t th).length = 9 := by
  unfold partition
  induction rects using List.reverseRecOn with
  | nil => rfl
  | append_singleton l r ih =>
    rw [List.foldl_append, List.foldl_cons, List.foldl_nil, length_partitionStep, ih]

theorem mem_partition (rects : List Rect) (t : Rect) (th : ℚ) (g : Nat) (r' : Rect) :
    r' ∈ (partition rects t th).getD g [] ↔
      r' ∈ rects ∧ (g = homeBucket t r' ∨ g ∈ dupBuckets t th r') := by
  induction rects using List.reverseRecOn with
  | nil =>
    unfold partition
    simp only [List.foldl_nil, List.not_mem_nil, false_and, iff_false]
    intro h
    rcases Nat.lt_or_ge g 9 with hg | hg
    · interval_cases g <;> simp [emptyGroups] at h
    · rw [List.getD_eq_getElem?_getD, List.getElem?_eq_none (by simp [emptyGroups]; omega)] at h
      simp at h
  | append_singleton l r ih =>
    unfold partition at ih ⊢
    rw [List.foldl_append, List.foldl_cons, List.foldl_nil,
      mem_partitionStep t th _ r (by
        have := length_partition l t th
        unfold partition at this
        exact this) g r', ih]
    constructor
    · rintro (⟨h1, h2⟩ | ⟨h1, h2⟩)
      · exact ⟨List.mem_append_left _ h1, h2⟩
      · subst h1; exact ⟨List.mem_append_right _ (by simp), h2⟩
    · rintro ⟨h1, h2⟩
      rcases List.mem_append.mp h1 with h | h
      · exact Or.inl ⟨h, h2⟩
      · simp only [List.mem_singleton] at h
        subst h
        exact Or.inr ⟨rfl, h2⟩

set_option maxHeartbeats 1000000 in
theorem mem_dupBucketsFor (gid : Nat) (t : Rect) (th : ℚ) (r : Rect) (g : Nat) :
    g ∈ dupBucketsFor gid t th r ↔
      (gid = 2 ∧ g = 1 ∧ r.left ≤ t.right - t.width * th) ∨
      (gid = 8 ∧ g = 7 ∧ r.left ≤ t.right - t.width * th) ∨
      (gid = 0 ∧ g = 1 ∧ t.left + t.width * th ≤ r.right) ∨
      (gid = 6 ∧ g = 7 ∧ t.left + t.width * th ≤ r.right) ∨
      (gid = 6 ∧ g = 3 ∧ r.top ≤ t.bottom - t.height * th) ∨
      (gid = 8 ∧ g = 5 ∧ r.top ≤ t.bottom - t.height * th) ∨
      (gid = 0 ∧ g = 3 ∧ t.top + t.height * th ≤ r.bottom) ∨
      (gid = 2 ∧ g = 5 ∧ t.top + t.height * th ≤ r.bottom) := by
  unfold dupBucketsFor
  split_ifs <;> simp_all

theorem mem_dupBuckets (t : Rect) (th : ℚ) (r : Rect) (g : Nat) :
    g ∈ dupBuckets t th r ↔ cornerDup t th r g :=
  mem_dupBucketsFor (homeBucket t r) t th r g

/-! ## Claim C4 -/

/-- C4: `partition` places every candidate in exactly one home bucket of
the 3×3 grid, determined solely by its center against the target's
horizontal and vertical spans with boundary ties classified as "within";
the only additional placements are corner-bucket candidates duplicated
into the adjacent edge bucket(s) under the overlap rule, which holds with
`≥` so that an overlap exactly at the threshold duplicates while one just
below does not; an empty candidate set yields nine empty buckets. -/
theorem claim_C4_partition_buckets (rects : List Rect) (t : Rect) (th : ℚ) :
    partition [] t th = emptyGroups ∧
    (∀ r, homeBucket t r < 9) ∧
    (∀ r r', r.centerX = r'.centerX → r.centerY = r'.centerY →
      homeBucket t r = homeBucket t r') ∧
    (∀ r, t.left ≤ r.centerX → r.centerX ≤ t.right → homeBucket t r % 3 = 1) ∧
    (∀ r, t.top ≤ r.centerY → r.centerY ≤ t.bottom → homeBucket t r / 3 = 1) ∧
    (∀ g r, r ∈ (partition rects t th).getD g [] ↔
      r ∈ rects ∧ (g = homeBucket t r ∨ cornerDup t th r g)) ∧
    (∀ r, homeBucket t r = 0 →
      (r ∈ (partition rects t th).getD 3 [] ↔
        r ∈ rects ∧ t.top + t.height * th ≤ r.bottom)) := by
  refine ⟨rfl, fun r => homeBucket_lt t r, ?_, ?_, ?_, ?_, ?_⟩
  · intro r r' hx hy
    unfold homeBucket
    rw [hx, hy]
  · intro r h1 h2
    unfold homeBucket
    rw [if_neg (not_lt.mpr h1), if_pos h2]
    split_ifs <;> omega
  · intro r h1 h2
    unfold homeBucket
    rw [if_neg (not_lt.mpr h1), if_pos h2]
    split_ifs <;> omega
  · intro g r
    rw [mem_partition, mem_dupBuckets]
  · intro r h0
    rw [mem_partition, mem_dupBuckets]
    unfold cornerDup
    simp [h0]

theorem claim_C4_partition_buckets_witness :
    homeBucket tC4 rC4 = 0 ∧ rC4 ∈ (partition [rC4] tC4 (1 / 2)).getD 3 [] :=
  ⟨by with_unfolding_all decide,
    ((claim_C4_partition_buckets [rC4] tC4 (1 / 2)).2.2.2.2.2.2 rC4 (by with_unfolding_all decide)).mpr
      ⟨List.mem_singleton.mpr rfl, by with_unfolding_all decide⟩⟩

/-! ## Claim C8 -/

/-- C8: the four `near*` metrics are nonnegative for every candidate and
are exactly `0` whenever the candidate's span covers the target's
corresponding center line (plumb line / horizon) or edge (left / top). -/
theorem claim_C8_near_metrics (t r : Rect) :
    (0 ≤ nearPlumbLineIsBetter t r ∧ 0 ≤ nearHorizonIsBetter t r ∧
     0 ≤ nearTargetLeftIsBetter t r ∧ 0 ≤ nearTargetTopIsBetter t r) ∧
    (r.left ≤ t.centerX → t.centerX ≤ r.right → nearPlumbLineIsBetter t r = 0) ∧
    (r.top ≤ t.centerY → t.centerY ≤ r.bottom → nearHorizonIsBetter t r = 0) ∧
    (r.left ≤ t.left → t.left ≤ r.right → nearTargetLeftIsBetter t r = 0) ∧
    (r.top ≤ t.top → t.top ≤ r.bottom → nearTargetTopIsBetter t r = 0) := by
  unfold nearPlumbLineIsBetter nearHorizonIsBetter nearTargetLeftIsBetter nearTargetTopIsBetter
  refine ⟨⟨?_, ?_, ?_, ?_⟩, ?_, ?_, ?_, ?_⟩ <;> simp only []
  · split_ifs <;> linarith
  · split_ifs <;> linarith
  · split_ifs <;> linarith
  · split_ifs <;> linarith
  · intro h1 h2; split_ifs <;> linarith
  · intro h1 h2; split_ifs <;> linarith
  · intro h1 h2; split_ifs <;> linarith
  · intro h1 h2; split_ifs <;> linarith

theorem claim_C8_near_metrics_witness :
    nearPlumbLineIsBetter tC8 rC8 = 0 ∧ nearHorizonIsBetter tC8 rC8 = 0 ∧
    nearTargetLeftIsBetter tC8 rC8 = 0 ∧ nearTargetTopIsBetter tC8 rC8 = 0 :=
  ⟨(claim_C8_near_metrics tC8 rC8).2.1 (by with_unfolding_all decide) (by with_unfolding_all decide),
   (claim_C8_near_metrics tC8 rC8).2.2.1 (by with_unfolding_all decide) (by with_unfolding_all decide),
   (claim_C8_near_metrics tC8 rC8).2.2.2.1 (by with_unfolding_all decide) (by with_unfolding_all decide),
   (claim_C8_near_metrics tC8 rC8).2.2.2.2 (by with_unfolding_all decide) (by with_unfolding_all decide)⟩

/-! ## Claim C7 -/

/-- C7: with `straightOnly` set, the diagonal tier is dropped
(`priorities.pop()`), so whenever the center bucket and the direction's
edge bucket of the first pass are empty — in particular when the only
candidates are corner-bucket-only, diagonal ones — `navigate` returns
none, for every direction. -/
theorem claim_C7_straightOnly_diagonal (geom : Elem → Option RawRect) (target : Elem)
    (direction : Dir) (candidates : List Elem) (cfg : EffCfg)
    (hso : cfg.straightOnly = true) (tr : Rect)
    (htr : (geom target).map (rectOfRaw target) = some tr)
    (h4 : (partition (candidates.filterMap (fun c => (geom c).map (rectOfRaw c)))
        tr (effThreshold cfg)).getD 4 [] = [])
    (hedge : (partition (candidates.filterMap (fun c => (geom c).map (rectOfRaw c)))
        tr (effThreshold cfg)).getD (edgeBucket direction) [] = []) :
    navigate geom target direction candidates cfg = none := by
  have hdest : destGroupOf geom target direction candidates cfg = none := by
    unfold destGroupOf
    by_cases hc : candidates.isEmpty
    · simp [hc]
    · rw [if_neg hc, htr]
      simp only []
      by_cases hr : (candidates.filterMap (fun c => (geom c).map (rectOfRaw c))).isEmpty
      · simp [hr]
      · rw [if_neg hr, hso]
        rw [h4]
        cases direction <;>
          simp only [buildPriorities, edgeBucket] at hedge ⊢ <;>
          rw [hedge] <;> rfl
  unfold navigate
  rw [hdest]

theorem claim_C7_straightOnly_diagonal_witness :
    navigate geomC7 1 .right [2] cfgC7 = none ∧
    navigate geomC7 1 .right [2] { cfgC7 with straightOnly := false } = some 2 :=
  ⟨claim_C7_straightOnly_diagonal geomC7 1 .right [2] cfgC7 (by with_unfolding_all decide)
      (rectOfRaw 1 ⟨0, 0, 10, 10, 10, 10⟩) (by with_unfolding_all decide) (by with_unfolding_all decide) (by with_unfolding_all decide),
    by with_unfolding_all decide⟩

/-! ## Claim C5 -/

/-- C5: `navigate` returns the sorted-first member of the first
non-empty priority tier, unless `rememberSource` is on and the
`previous` record's `destination` equals the current target, its
`reverse` equals the requested direction, and its `target` names an
element present in the winning tier — then that element is returned; a
`previous` record failing any of these conditions is ignored. -/
theorem claim_C5_navigate_winner (geom : Elem → Option RawRect) (target : Elem)
    (direction : Dir) (candidates : List Elem) (cfg : EffCfg) :
    (destGroupOf geom target direction candidates cfg = none →
      navigate geom target direction candidates cfg = none) ∧
    (∀ g, destGroupOf geom target direction candidates cfg = some g →
      (cfg.rememberSource = false →
        navigate geom target direction candidates cfg = g.head?.map (·.element)) ∧
      (cfg.previous = none →
        navigate geom target direction candidates cfg = g.head?.map (·.element)) ∧
      (∀ p, cfg.previous = some p → ¬(p.destination = target ∧ p.reverse = direction) →
        navigate geom target direction candidates cfg = g.head?.map (·.element)) ∧
      (∀ p, cfg.rememberSource = true → cfg.previous = some p →
        p.destination = target → p.reverse = direction →
        p.target ∉ g.map (·.element) →
        navigate geom target direction candidates cfg = g.head?.map (·.element)) ∧
      (∀ p, cfg.rememberSource = true → cfg.previous = some p →
        p.destination = target → p.reverse = direction →
        p.target ∈ g.map (·.element) →
        navigate geom target direction candidates cfg = some p.target)) := by
  constructor
  · intro h
    unfold navigate
    rw [h]
  · intro g hg
    refine ⟨?_, ?_, ?_, ?_, ?_⟩
    · intro hrs
      unfold navigate
      rw [hg]
      simp [hrs]
    · intro hp
      unfold navigate
      rw [hg]
      simp [hp]
    · intro p hp hcond
      unfold navigate
      rw [hg]
      simp [hp, hcond]
    · intro p hrs hp h1 h2 hmem
      have hfind : g.find? (fun r => r.element = p.target) = none := by
        rw [List.find?_eq_none]
        intro r hr
        simp only [decide_eq_true_eq]
        intro he
        exact hmem (List.mem_map.mpr ⟨r, hr, he⟩)
      unfold navigate
      rw [hg]
      simp [hrs, hp, h1, h2, hfind]
    · intro p hrs hp h1 h2 hmem
      have hfind : (g.find? (fun r => r.element = p.target)).isSome := by
        rw [List.find?_isSome]
        obtain ⟨r, hr, he⟩ := List.mem_map.mp hmem
        exact ⟨r, hr, by simp [he]⟩
      obtain ⟨r, hr⟩ := Option.isSome_iff_exists.mp hfind
      have hre : r.element = p.target := by
        have := List.find?_some hr
        simpa using this
      unfold navigate
      rw [hg]
      simp [hrs, hp, h1, h2, hr, hre]

theorem claim_C5_navigate_winner_witness :
    navigate geomC5 1 .right [2, 3] cfgC5 = some 3 :=
  ((claim_C5_navigate_winner geomC5 1 .right [2, 3] cfgC5).2 gC5
      (by with_unfolding_all decide)).2.2.2.2 ⟨3, 1, .right⟩ rfl rfl rfl rfl
    (by with_unfolding_all decide)

/-! ## Claim C10 -/

/-- C10: `getSectionId` resolves an element to the first non-disabled
section whose selector matches it, in the registry's enumeration
(registration) order, skipping disabled sections entirely; and it
succeeds whenever any non-disabled section matches. -/
theorem claim_C10_first_matching_section (env : Env) (st : EngineState) (e : Elem) :
    (∀ id, getSectionId env st e = some id →
      ∃ l1 cfg l2, st.sections = l1 ++ (id, cfg) :: l2 ∧
        (!truthy cfg.disabled && matchSel env e cfg.selector) = true ∧
        ∀ p ∈ l1, (!truthy p.2.disabled && matchSel env e p.2.selector) = false) ∧
    ((∃ p ∈ st.sections, (!truthy p.2.disabled && matchSel env e p.2.selector) = true) →
      ∃ id, getSectionId env st e = some id) := by
  constructor
  · intro id hid
    unfold getSectionId at hid
    obtain ⟨q, hfind, heq⟩ := Option.map_eq_some'.mp hid
    rw [List.find?_eq_some] at hfind
    obtain ⟨hq, l1, l2, hsplit, hprev⟩ := hfind
    refine ⟨l1, q.2, l2, ?_, hq, ?_⟩
    · rw [hsplit, ← heq]
    · intro p hp
      have h := hprev p hp
      cases hb : (!truthy p.2.disabled && matchSel env e p.2.selector) with
      | false => rfl
      | true => rw [hb] at h; exact absurd h (by simp)
  · intro ⟨p, hp, hpred⟩
    have : (st.sections.find?
        (fun p => !truthy p.2.disabled && matchSel env e p.2.selector)).isSome :=
      List.find?_isSome.mpr ⟨p, hp, hpred⟩
    obtain ⟨q, hq⟩ := Option.isSome_iff_exists.mp this
    exact ⟨q.1, by unfold getSectionId; rw [hq]; rfl⟩

theorem claim_C10_first_matching_section_witness :
    getSectionId envC10 stC10 5 = some "a" ∧
    ∃ l1 cfg l2, stC10.sections = l1 ++ ("a", cfg) :: l2 ∧
      (!truthy cfg.disabled && matchSel envC10 5 cfg.selector) = true ∧
      ∀ p ∈ l1, (!truthy p.2.disabled && matchSel envC10 5 p.2.selector) = false :=
  ⟨by with_unfolding_all decide,
    (claim_C10_first_matching_section envC10 stC10 5).1 "a"
      (by with_unfolding_all decide)⟩

/-! ## Claim C6 -/

/-- C6: under `self-only` a directional move with no in-section winner
and no applicable `leaveFor` fails outright, no matter what other
sections contain; under `self-first` the in-section search runs first
and only on failure does the candidate set fall back to all other
sections' navigable elements; under any other restrict value the search
runs over all sections minus the current element. -/
theorem claim_C6_restrict_modes (env : Env) (st : EngineState) (direction : Dir)
    (cur : Elem) (curSid : String) :
    ((effectiveCfg st curSid).restrict = "self-only" →
      navigate env.geom cur direction
        (exclude (getSectionNavigableElements env st curSid) [cur])
        (effectiveCfg st curSid) = none →
      ((findSection st curSid).bind (·.leaveFor)).bind (fun m => m.get direction) = none →
      env.snAttr direction cur = none →
      focusNext env st direction cur curSid = (false, st)) ∧
    ((effectiveCfg st curSid).restrict = "self-first" →
      navigate env.geom cur direction
        (exclude (getSectionNavigableElements env st curSid) [cur])
        (effectiveCfg st curSid) = none →
      pickNext env st direction cur curSid =
        navigate env.geom cur direction
          (exclude (allNavigableElements env st) (getSectionNavigableElements env st curSid))
          (effectiveCfg st curSid)) ∧
    ((effectiveCfg st curSid).restrict ≠ "self-only" →
      (effectiveCfg st curSid).restrict ≠ "self-first" →
      pickNext env st direction cur curSid =
        navigate env.geom cur direction
          (exclude (allNavigableElements env st) [cur])
          (effectiveCfg st curSid)) := by
  refine ⟨?_, ?_, ?_⟩
  · intro hr hnav hlf hattr
    have hpick : pickNext env st direction cur curSid = none := by
      simp [pickNext, hr, hnav]
    unfold focusNext
    rw [hattr, hpick]
    unfold gotoLeaveFor
    rw [hlf]
  · intro hr hnav
    simp [pickNext, hr, hnav]
  · intro h1 h2
    simp [pickNext, h1, h2]

theorem claim_C6_restrict_modes_witness :
    focusNext envC6 stC6 .right 1 "a" = (false, stC6) ∧
    getSectionNavigableElements envC6 stC6 "b" = [2] :=
  ⟨(claim_C6_restrict_modes envC6 stC6 .right 1 "a").1
      (by with_unfolding_all decide) (by with_unfolding_all decide)
      (by with_unfolding_all decide) rfl,
    by with_unfolding_all decide⟩

/-! ## Observations of the engine state -/

/-! ## Lemmas about `updateSection` -/

theorem find?_update_list (l : List (String × SectionCfg)) (sid id : String)
    (f : SectionCfg → SectionCfg) :
    (l.map (fun p => if p.1 = sid then (p.1, f p.2) else p)).find? (fun p => p.1 = id) =
      ((l.find? (fun p => p.1 = id)).map
        (fun p => if p.1 = sid then (p.1, f p.2) else p)) := by
  rw [List.find?_map]
  have hc : ((fun p : String × SectionCfg => decide (p.1 = id)) ∘
      (fun p : String × SectionCfg => if p.1 = sid then (p.1, f p.2) else p)) =
      (fun p : String × SectionCfg => decide (p.1 = id)) := by
    funext p
    by_cases h : p.1 = sid <;> simp [h]
  rw [hc]

theorem findSection_updateSection (st : EngineState) (sid : String)
    (f : SectionCfg → SectionCfg) (id : String) :
    findSection (updateSection st sid f) id =
      (findSection st id).map (fun c => if id = sid then f c else c) := by
  unfold findSection updateSection
  simp only [find?_update_list]
  cases hfind : st.sections.find? (fun p => p.1 = id) with
  | none => rfl
  | some p =>
    have hp : p.1 = id := by simpa using List.find?_some hfind
    by_cases hs : id = sid <;> simp [hp, hs]

theorem getSectionId_updateSection (env : Env) (st : EngineState) (sid : String)
    (f : SectionCfg → SectionCfg) (e : Elem)
    (hd : ∀ c, (f c).disabled = c.disabled)
    (hs : ∀ c, (f c).selector = c.selector) :
    getSectionId env (updateSection st sid f) e = getSectionId env st e := by
  unfold getSectionId updateSection
  simp only [List.find?_map]
  have hpred : ((fun p => !truthy p.2.disabled && matchSel env e p.2.selector) ∘
      (fun p : String × SectionCfg => if p.1 = sid then (p.1, f p.2) else p)) =
      (fun p => !truthy p.2.disabled && matchSel env e p.2.selector) := by
    funext p
    by_cases h : p.1 = sid <;> simp [h, hd, hs]
  rw [hpred]
  cases hfind : st.sections.find?
      (fun p => !truthy p.2.disabled && matchSel env e p.2.selector) with
  | none => rfl
  | some p => by_cases h : p.1 = sid <;> simp [h]

/-! ## Claim C1 -/

/-- C1 as stated is false: moving right from element 1 finds winner 2,
the `willunfocus` stage vetoes and the move reports failure, yet section
`a`'s `previous` record — engine state — has been overwritten, because
`focusNext` records it before `focusElement` runs the gate. -/
theorem claim_C1_counterexample :
    (focusNext envC1 stC1 .right 1 "a").1 = false ∧
    sectionPrevious stC1 "a" = none ∧
    sectionPrevious (focusNext envC1 stC1 .right 1 "a").2 "a" =
      some ⟨1, 2, Dir.left⟩ := by
  with_unfolding_all decide

/-- C1 amended: for a directional move not silenced by pause or an
in-progress focus change whose geometric winner stays in the current
section, the two-stage gate (`willunfocus` then `willfocus`) runs before
focus commits and before the `lastFocusedElement`/`lastSectionId`
bookkeeping is touched, and a veto at either stage returns failure with
that bookkeeping intact — but the current section's `previous` record
has already been overwritten with the new move record before the gate,
and a veto at the second stage additionally leaves the previously
focused element blurred. -/
theorem claim_C1_gate_spares_bookkeeping_not_previous (env : Env) (st : EngineState)
    (direction : Dir) (cur : Elem) (curSid : String) (nxt : Elem) (c : Elem)
    (hAttr : env.snAttr direction cur = none)
    (hPick : pickNext env st direction cur curSid = some nxt)
    (hSame : getSectionId env st nxt = some curSid)
    (hSec : (findSection st curSid).isSome)
    (hDfc : st.duringFocusChange = false)
    (hPause : st.pauseFlag = false)
    (hFoc : st.focused = some c) :
    (env.dispatchOk "willunfocus" c = false →
      (focusNext env st direction cur curSid).1 = false ∧
      (focusNext env st direction cur curSid).2.focused = st.focused ∧
      (focusNext env st direction cur curSid).2.lastSectionId = st.lastSectionId ∧
      (∀ id, sectionLastFocused (focusNext env st direction cur curSid).2 id =
        sectionLastFocused st id) ∧
      sectionPrevious (focusNext env st direction cur curSid).2 curSid =
        some ⟨cur, nxt, reverseDir direction⟩ ∧
      (∀ id, id ≠ curSid →
        sectionPrevious (focusNext env st direction cur curSid).2 id =
          sectionPrevious st id)) ∧
    (env.dispatchOk "willunfocus" c = true →
      env.dispatchOk "willfocus" nxt = false →
      (focusNext env st direction cur curSid).1 = false ∧
      (focusNext env st direction cur curSid).2.focused = none ∧
      (focusNext env st direction cur curSid).2.lastSectionId = st.lastSectionId ∧
      (∀ id, sectionLastFocused (focusNext env st direction cur curSid).2 id =
        sectionLastFocused st id) ∧
      sectionPrevious (focusNext env st direction cur curSid).2 curSid =
        some ⟨cur, nxt, reverseDir direction⟩ ∧
      (∀ id, id ≠ curSid →
        sectionPrevious (focusNext env st direction cur curSid).2 id =
          sectionPrevious st id)) := by
  set f : SectionCfg → SectionCfg :=
    fun cf => { cf with previous := some ⟨cur, nxt, reverseDir direction⟩ } with hf
  set st1 : EngineState := updateSection st curSid f with hst1
  have hNext : getSectionId env st1 nxt = some curSid := by
    rw [hst1, getSectionId_updateSection env st curSid f nxt (fun c => rfl) (fun c => rfl)]
    exact hSame
  have hRun : focusNext env st direction cur curSid =
      focusElement env st1 (some nxt) (some curSid) (some direction) := by
    unfold focusNext
    rw [hAttr, hPick]
    simp only [← hf, ← hst1, hNext]
    simp
  have hObsLast : ∀ (b : Bool) (id : String),
      sectionLastFocused { st1 with duringFocusChange := b } id = sectionLastFocused st id := by
    intro b id
    unfold sectionLastFocused
    show (findSection st1 id).bind _ = _
    rw [hst1, findSection_updateSection]
    cases hfind : findSection st id with
    | none => rfl
    | some cfg => by_cases h : id = curSid <;> simp [h, hf]
  have hObsPrevSelf : ∀ (b : Bool),
      sectionPrevious { st1 with duringFocusChange := b } curSid =
        some ⟨cur, nxt, reverseDir direction⟩ := by
    intro b
    unfold sectionPrevious
    show (findSection st1 curSid).bind _ = _
    rw [hst1, findSection_updateSection]
    obtain ⟨cfg, hcfg⟩ := Option.isSome_iff_exists.mp hSec
    simp [hcfg, hf]
  have hObsPrevOther : ∀ (b : Bool) (id : String), id ≠ curSid →
      sectionPrevious { st1 with duringFocusChange := b } id = sectionPrevious st id := by
    intro b id hid
    unfold sectionPrevious
    show (findSection st1 id).bind _ = _
    rw [hst1, findSection_updateSection]
    cases hfind : findSection st id with
    | none => rfl
    | some cfg => simp [hid]
  have h1 : st1.duringFocusChange = false := hDfc
  have h2 : st1.pauseFlag = false := hPause
  have h3 : st1.focused = some c := hFoc
  have hFocEq : st1.focused = st.focused := by rw [hst1]; rfl
  have hLastEq : st1.lastSectionId = st.lastSectionId := by rw [hst1]; rfl
  constructor
  · intro hVeto
    have hFE : focusElement env st1 (some nxt) (some curSid) (some direction) =
        (false, { st1 with duringFocusChange := false }) := by
      unfold focusElement
      simp [h1, h2, h3, hVeto]
    rw [hRun, hFE]
    exact ⟨rfl, hFocEq, hLastEq, hObsLast false, hObsPrevSelf false, hObsPrevOther false⟩
  · intro hOk hVeto
    have hFE : focusElement env st1 (some nxt) (some curSid) (some direction) =
        (false, { st1 with focused := none, duringFocusChange := false }) := by
      unfold focusElement
      simp [h1, h2, h3, hOk, hVeto]
    rw [hRun, hFE]
    have hL : ∀ id, sectionLastFocused
        { st1 with focused := none, duringFocusChange := false } id =
          sectionLastFocused st id := by
      intro id
      have hx := hObsLast false id
      unfold sectionLastFocused at hx ⊢
      exact hx
    have hPS : sectionPrevious { st1 with focused := none, duringFocusChange := false }
        curSid = some ⟨cur, nxt, reverseDir direction⟩ := by
      have hx := hObsPrevSelf false
      unfold sectionPrevious at hx ⊢
      exact hx
    have hPO : ∀ id, id ≠ curSid →
        sectionPrevious { st1 with focused := none, duringFocusChange := false } id =
          sectionPrevious st id := by
      intro id h
      have hx := hObsPrevOther false id h
      unfold sectionPrevious at hx ⊢
      exact hx
    exact ⟨rfl, rfl, hLastEq, hL, hPS, hPO⟩

theorem claim_C1_gate_spares_bookkeeping_not_previous_witness :
    (focusNext envC1 stC1 .right 1 "a").1 = false ∧
    (focusNext envC1 stC1 .right 1 "a").2.focused = some 1 ∧
    sectionPrevious (focusNext envC1 stC1 .right 1 "a").2 "a" = some ⟨1, 2, Dir.left⟩ :=
  have h := (claim_C1_gate_spares_bookkeeping_not_previous envC1 stC1 .right 1 "a" 2 1
    rfl (by with_unfolding_all decide) (by with_unfolding_all decide)
    (by with_unfolding_all decide) rfl rfl rfl).1 (by with_unfolding_all decide)
  ⟨h.1, h.2.1, h.2.2.2.2.1⟩

/-! ## Claim C2 -/

/-- C2's blocking half fails on the code: with `leaveFor.right = ""` and
a cross-section geometric winner, the empty string is falsy, so
`gotoLeaveFor`'s `if (leaveFor)` guard skips the `return null` block
branch and returns `false`; `focusNext` then proceeds to commit focus to
the geometric winner and reports success instead of failing. -/
theorem claim_C2_leavefor_block_broken :
    ((findSection stC2 "a").bind (·.leaveFor)).bind (fun m => m.get Dir.right) =
      some (.str "") ∧
    (gotoLeaveFor envC2 stC2 "a" Dir.right).1 = some false ∧
    (focusNext envC2 stC2 .right 1 "a").1 = true ∧
    (focusNext envC2 stC2 .right 1 "a").2.focused = some 2 := by
  with_unfolding_all decide

/-! ## Claim C3 -/

/-- C3 fails on the code: `focusSection` iterates its range with
`forEach`, whose callback `return focusElement(...)` neither stops the
scan nor propagates the result.  `focus()` with no target therefore
focuses section `a`'s element (recorded in its `lastFocusedElement`) and
then section `b`'s element on top of it, ends focused on the *last*
section of the range rather than stopping at the first, and returns
`false` even though focus changed. -/
theorem claim_C3_focus_scan_broken :
    (snFocus envC3 stC3 none false).1 = false ∧
    (snFocus envC3 stC3 none false).2.focused = some 2 ∧
    sectionLastFocused (snFocus envC3 stC3 none false).2 "a" = some 1 ∧
    (snFocus envC3 stC3 none false).2.lastSectionId = "b" ∧
    (snFocus envC3 stC3 (some (.str "a")) false).1 = false ∧
    (snFocus envC3 stC3 (some (.str "a")) false).2.focused = some 1 := by
  with_unfolding_all decide

/-! ## Claim C9 -/

theorem keys_updateSection (st : EngineState) (sid : String) (f : SectionCfg → SectionCfg) :
    (updateSection st sid f).sections.map Prod.fst = st.sections.map Prod.fst := by
  unfold updateSection
  simp only [List.map_map]
  apply List.map_congr_left
  intro p _
  by_cases h : p.1 = sid <;> simp [h]

theorem count_updateSection (st : EngineState) (sid : String) (f : SectionCfg → SectionCfg) :
    (updateSection st sid f).sectionCount = st.sectionCount := rfl

theorem length_updateSection (st : EngineState) (sid : String)
    (f : SectionCfg → SectionCfg) :
    (updateSection st sid f).sections.length = st.sections.length := by
  simp [updateSection]

theorem findSection_eq_none_iff (st : EngineState) (i : String) :
    findSection st i = none ↔ i ∉ st.sections.map Prod.fst := by
  unfold findSection
  rw [Option.map_eq_none']
  rw [List.find?_eq_none]
  constructor
  · intro h hmem
    obtain ⟨p, hp, hpi⟩ := List.mem_map.mp hmem
    have := h p hp
    simp [hpi] at this
  · intro h p hp
    simp only [decide_eq_true_eq]
    intro hpi
    exact h (List.mem_map.mpr ⟨p, hp, hpi⟩)

theorem sections_snSet (st : EngineState) (id : Option String) (patch : List PatchItem)
    (hok : ∀ i, id = some i → (findSection st i).isSome) :
    (snSet st id patch).sections.map Prod.fst = st.sections.map Prod.fst ∧
    (snSet st id patch).sectionCount = st.sectionCount := by
  cases id with
  | none =>
    simp only [snSet]
    have main : ∀ (l : List PatchItem) (s : EngineState),
        s.sections.map Prod.fst = st.sections.map Prod.fst →
        s.sectionCount = st.sectionCount →
        ((l.foldl (fun s item => if item.settable then
            { s with global := applyPatchGlobal s.global item } else s) s).sections.map
              Prod.fst = st.sections.map Prod.fst ∧
         (l.foldl (fun s item => if item.settable then
            { s with global := applyPatchGlobal s.global item } else s) s).sectionCount =
              st.sectionCount) := by
      intro l
      induction l with
      | nil => intro s h1 h2; exact ⟨h1, h2⟩
      | cons item l ih =>
        intro s h1 h2
        simp only [List.foldl_cons]
        by_cases hi : item.settable = true
        · rw [if_pos hi]; exact ih _ h1 h2
        · rw [if_neg hi]; exact ih _ h1 h2
    exact main patch st rfl rfl
  | some i =>
    simp only [snSet]
    rw [if_pos (by simpa using hok i rfl)]
    have main : ∀ (l : List PatchItem) (s : EngineState),
        s.sections.map Prod.fst = st.sections.map Prod.fst →
        s.sectionCount = st.sectionCount →
        ((l.foldl (fun s item => if item.settable then
            updateSection s i (fun c => applyPatchSection c item) else s) s).sections.map
              Prod.fst = st.sections.map Prod.fst ∧
         (l.foldl (fun s item => if item.settable then
            updateSection s i (fun c => applyPatchSection c item) else s) s).sectionCount =
              st.sectionCount) := by
      intro l
      induction l with
      | nil => intro s h1 h2; exact ⟨h1, h2⟩
      | cons item l ih =>
        intro s h1 h2
        simp only [List.foldl_cons]
        by_cases hi : item.settable = true
        · rw [if_pos hi]
          exact ih _ (by rw [keys_updateSection]; exact h1)
            (by rw [count_updateSection]; exact h2)
        · rw [if_neg hi]; exact ih _ h1 h2
    exact main patch st rfl rfl

theorem length_snSet (st : EngineState) (id : Option String) (patch : List PatchItem)
    (hok : ∀ i, id = some i → (findSection st i).isSome) :
    (snSet st id patch).sections.length = st.sections.length := by
  have := congrArg List.length (sections_snSet st id patch hok).1
  simpa using this

theorem filter_remove_aux :
    ∀ (l : List (String × SectionCfg)) (i : String),
      (l.map Prod.fst).Nodup → (l.find? (fun p => p.1 = i)).isSome →
      ((l.filter (fun p => !(p.1 = i : Bool))).length + 1 = l.length ∧
       ((l.filter (fun p => !(p.1 = i : Bool))).map Prod.fst).Nodup)
  | [], i, _, hfind => by simp [List.find?] at hfind
  | p :: l, i, hnd, hfind => by
    rw [List.map_cons, List.nodup_cons] at hnd
    by_cases hp : p.1 = i
    · have hnotin : ∀ q ∈ l, ¬ (q.1 = i) := by
        intro q hq hqi
        exact hnd.1 (List.mem_map.mpr ⟨q, hq, hqi.trans hp.symm⟩)
      have hfilter : l.filter (fun p => !(p.1 = i : Bool)) = l := by
        apply List.filter_eq_self.mpr
        intro q hq
        simpa using hnotin q hq
      constructor
      · simp [List.filter_cons, hp, hfilter]
      · simp [List.filter_cons, hp, hfilter, hnd.2]
    · have hfind2 : (l.find? (fun p => p.1 = i)).isSome := by
        rw [List.find?_cons_of_neg] at hfind
        · exact hfind
        · simpa using hp
      have ih := filter_remove_aux l i hnd.2 hfind2
      have hkeep : (!(p.1 = i : Bool)) = true := by simpa using hp
      constructor
      · rw [List.filter_cons, if_pos hkeep]
        simp only [List.length_cons]
        omega
      · rw [List.filter_cons, if_pos hkeep, List.map_cons, List.nodup_cons]
        refine ⟨?_, ih.2⟩
        intro hmem
        obtain ⟨q, hq, hq1⟩ := List.mem_map.mp hmem
        exact hnd.1 (List.mem_map.mpr ⟨q, List.mem_of_mem_filter hq, hq1⟩)

theorem invC9_snAdd (st : EngineState) (id : Option String) (patch : List PatchItem)
    (h : invC9 st) : invC9 (snAdd st id patch) := by
  obtain ⟨hnd, hcnt⟩ := h
  have main : ∀ (i : String) (s : EngineState),
      s.sections = st.sections → s.sectionCount = st.sectionCount →
      invC9 (if (findSection s i).isSome then s
        else snSet (addEntry s i) (some i) patch) := by
    intro i s hsec hcnt2
    by_cases hi : (findSection s i).isSome
    · rw [if_pos hi]
      exact ⟨hsec ▸ hnd, by rw [hcnt2, hsec]; exact hcnt⟩
    · rw [if_neg hi]
      have hnone : findSection s i = none := by
        cases hfs : findSection s i with
        | none => rfl
        | some _ => rw [hfs] at hi; simp at hi
      have hnotin : i ∉ s.sections.map Prod.fst := (findSection_eq_none_iff s i).mp hnone
      have hfound : (findSection (addEntry s i) i).isSome := by
        unfold findSection addEntry
        simp only [Option.isSome_map', List.find?_isSome]
        exact ⟨(i, {}), by simp, by simp⟩
      have hokadd : ∀ j, (some i : Option String) = some j →
          (findSection (addEntry s i) j).isSome := by
        intro j hj
        cases hj
        exact hfound
      obtain ⟨h1, h2⟩ := sections_snSet _ (some i) patch hokadd
      have hlen := length_snSet _ (some i) patch hokadd
      constructor
      · rw [h1]
        simp only [addEntry, List.map_append, List.map_cons, List.map_nil]
        rw [List.nodup_append]
        refine ⟨hsec ▸ hnd, List.nodup_singleton i, ?_⟩
        intro a ha hb
        simp only [List.mem_singleton] at hb
        subst hb
        exact hnotin (hsec ▸ ha)
      · rw [h2, hlen]
        show s.sectionCount + 1 = _
        simp only [addEntry, List.length_append, List.length_cons, List.length_nil]
        have hbase : s.sectionCount = (s.sections.length : ℤ) := by
          rw [hcnt2, hsec]
          exact hcnt
        omega
  cases id with
  | none => exact main (generateId st).1 (generateId st).2 rfl rfl
  | some i =>
    by_cases h0 : i = ""
    · have hred : snAdd st (some i) patch = snAdd st none patch := by
        subst h0
        rfl
      rw [hred]
      exact main (generateId st).1 (generateId st).2 rfl rfl
    · have hred : snAdd st (some i) patch =
          if (findSection st i).isSome then st
          else snSet (addEntry st i) (some i) patch := by
        simp only [snAdd, h0, addEntry]
        simp
      rw [hred]
      exact main i st rfl rfl

theorem invC9_applyOp (st : EngineState) (op : Op) (h : invC9 st)
    (hok : setOkB st op = true) : invC9 (applyOp st op) := by
  obtain ⟨hnd, hcnt⟩ := h
  cases op with
  | clear =>
    simp [applyOp, snClear, invC9]
  | enable i =>
    simp only [applyOp, snEnable]
    by_cases hi : (findSection st i).isSome
    · rw [if_pos hi]
      exact ⟨by rw [keys_updateSection]; exact hnd,
        by rw [count_updateSection, length_updateSection]; exact hcnt⟩
    · rw [if_neg hi]
      exact ⟨hnd, hcnt⟩
  | disable i =>
    simp only [applyOp, snDisable]
    by_cases hi : (findSection st i).isSome
    · rw [if_pos hi]
      exact ⟨by rw [keys_updateSection]; exact hnd,
        by rw [count_updateSection, length_updateSection]; exact hcnt⟩
    · rw [if_neg hi]
      exact ⟨hnd, hcnt⟩
  | set id patch =>
    have hok2 : ∀ i, id = some i → (findSection st i).isSome := by
      intro i hi
      subst hi
      simpa [setOkB] using hok
    refine ⟨?_, ?_⟩
    · show ((snSet st id patch).sections.map Prod.fst).Nodup
      rw [(sections_snSet st id patch hok2).1]
      exact hnd
    · show (snSet st id patch).sectionCount = ((snSet st id patch).sections.length : ℤ)
      rw [(sections_snSet st id patch hok2).2, length_snSet st id patch hok2]
      exact hcnt
  | remove i =>
    simp only [applyOp, snRemove]
    by_cases h0 : i = ""
    · rw [if_pos h0]; exact ⟨hnd, hcnt⟩
    · rw [if_neg h0]
      by_cases hi : (findSection st i).isSome
      · rw [if_pos hi]
        have hfind : (st.sections.find? (fun p => p.1 = i)).isSome := by
          unfold findSection at hi
          simpa using hi
        obtain ⟨hlen, hnd2⟩ := filter_remove_aux st.sections i hnd hfind
        refine ⟨hnd2, ?_⟩
        show st.sectionCount - 1 =
          ((st.sections.filter (fun p => !(p.1 = i : Bool))).length : ℤ)
        rw [hcnt]
        omega
      · rw [if_neg hi]; exact ⟨hnd, hcnt⟩
  | add id patch =>
    exact invC9_snAdd st id patch ⟨hnd, hcnt⟩

theorem invC9_applyOps : ∀ (ops : List Op) (st : EngineState), invC9 st →
    goodSeqB st ops = true → invC9 (applyOps st ops)
  | [], st, h, _ => h
  | op :: ops, st, h, hg => by
    rw [goodSeqB, Bool.and_eq_true] at hg
    exact invC9_applyOps ops (applyOp st op) (invC9_applyOp st op h hg.1) hg.2

/-- C9 as stated is false: a `set` with an unknown id and no recognized
config keys silently materialises a section entry without touching
`sectionCount`, so the count no longer equals the number of live
entries. -/
theorem claim_C9_counterexample :
    ¬ ((applyOps initState [Op.set (some "x") []]).sectionCount =
      ((applyOps initState [Op.set (some "x") []]).sections.length : ℤ)) := by
  with_unfolding_all decide

/-- C9 amended: after any sequence of `add`, `remove`, `clear`, `set`,
`enable` and `disable` operations in which every `set` that carries an
id names a section existing at that moment, `sectionCount` equals the
number of live entries in the registry (`add` on a fresh id increments
both together, `remove` on a known id deletes the entry and decrements
the count, `remove` on an unknown id changes nothing, `clear` resets
both). -/
theorem claim_C9_count_matches_live_entries (ops : List Op)
    (h : goodSeqB initState ops = true) :
    (applyOps initState ops).sectionCount =
      ((applyOps initState ops).sections.length : ℤ) :=
  (invC9_applyOps ops initState ⟨List.nodup_nil, rfl⟩ h).2

theorem claim_C9_count_matches_live_entries_witness :
    goodSeqB initState opsC9 = true ∧
    (applyOps initState opsC9).sectionCount =
      ((applyOps initState opsC9).sections.length : ℤ) :=
  ⟨by with_unfolding_all decide,
    claim_C9_count_matches_live_entries opsC9 (by with_unfolding_all decide)⟩

end SpatialNav
